import Mathlib

/-!
Verification of the macOS application backend (`src/backend/mac/application.rs`):
the deferred-callback queue, the main-thread drain routine, the application
lifecycle (quit) state machine, handle/delegate binding, menu command dispatch,
and locale post-processing.

Modelling conventions.  Deferred callbacks are opaque `FnOnce` closures in the
source; we identify them by `Nat` ids and record execution as a trace.  The
event handler (`dyn AppHandler`) is modelled as a trace of the `command` codes
it received.  Platform calls (`performSelectorOnMainThread`, `stop:`) are
recorded as explicit effect values rather than executed.  Machine integers:
the menu-item tag is an `isize` modelled as `Int`; its `as u32` truncating
cast is taken modulo `2 ^ 32`.  Rust strings are modelled as `List Char`
with explicit UTF-8 byte counting where the source manipulates byte indices.
-/

/-- Modelled from the spec: the shared single-consumer queue built by
`crate::common_util::shared_queue`, whose implementation is not part of the
sources at hand (only this file's use of it is).  Per the spec, the queue
holds pending callbacks in FIFO order together with a flag recording whether
a wake is already pending.  Callbacks are identified by `Nat` ids. -/
structure SharedQueue where
  queue : List Nat
  wake_pending : Bool
deriving DecidableEq

/-- Modelled from the spec: `SharedEnqueuer::enqueue` (producer half).  It
appends the callback at the back and returns `needs_wake`: true exactly when
the queue transitioned from empty-and-idle (no wake pending) to having
pending work; false if a wake is already pending. -/
def SharedEnqueuer.enqueue (q : SharedQueue) (cb : Nat) : SharedQueue × Bool :=
  ({ queue := q.queue ++ [cb], wake_pending := true }, !q.wake_pending)

/-- Modelled from the spec: the consumer half's drain, as iterated by
`run_on_main_queue`.  It removes and returns all currently queued callbacks
in FIFO order, leaving the queue empty and the wake flag clear. -/
def SharedDequeuer.drain (q : SharedQueue) : SharedQueue × List Nat :=
  ({ queue := [], wake_pending := false }, q.queue)

/-- Enqueue a whole list of callbacks in order (repeated producer calls). -/
def enqueueAll (q : SharedQueue) (cbs : List Nat) : SharedQueue :=
  cbs.foldl (fun acc cb => (SharedEnqueuer.enqueue acc cb).1) q

/-- The event handler (`Box<dyn AppHandler>`), modelled by the trace of
command codes it has received. -/
structure Handler where
  commands : List Nat
deriving DecidableEq

/-- `AppHandler::command`: the handler receives one command code. -/
def Handler.command (h : Handler) (code : Nat) : Handler :=
  { commands := h.commands ++ [code] }

/-- `DelegateState`: the optional event handler plus the deferred-callback
queue reachable from the native delegate object. -/
structure DelegateState where
  handler : Option Handler
  run_on_main_queue : SharedQueue
deriving DecidableEq

/-- `DelegateState::command`: forwards the code to the handler when one is
installed, otherwise does nothing. -/
def DelegateState.command (s : DelegateState) (code : Nat) : DelegateState :=
  match s.handler with
  | some inner => { s with handler := some (Handler.command inner code) }
  | none => s

/-- The `isize as u32` truncating cast performed on the native menu item tag:
keep the low 32 bits of the two's-complement representation. -/
def isize_as_u32 (tag : Int) : Nat :=
  (tag % (2 ^ 32 : Int)).toNat

/-- `handle_menu_item`: reads the native item's `tag`, truncates it to `u32`,
and forwards it through `DelegateState::command`. -/
def handle_menu_item (s : DelegateState) (tag : Int) : DelegateState :=
  DelegateState.command s (isize_as_u32 tag)

/-- The drain routine `run_on_main_queue`: drains the queue and invokes each
callback in order, passing the currently installed handler (or `None`).
Callback invocation is recorded as the trace of (callback id, handler
argument) pairs. -/
def run_on_main_queue (s : DelegateState) : DelegateState × List (Nat × Option Handler) :=
  let r := SharedDequeuer.drain s.run_on_main_queue
  ({ s with run_on_main_queue := r.1 }, r.2.map (fun cb => (cb, s.handler)))

/-- A platform wake notification requested by `AppHandle::run_on_main`:
`performSelectorOnMainThread: sel!(runOnMainQueue) … waitUntilDone: NO`. -/
inductive WakeEffect where
  | performRunOnMainQueueDeferred
deriving DecidableEq

/-- `AppHandle::run_on_main`: enqueues the callback; when `enqueue` reports
`needs_wake` it requests one deferred wake of the delegate, otherwise no
platform call is made.  Returns the queue and the requested wake effects. -/
def AppHandle.run_on_main (q : SharedQueue) (cb : Nat) : SharedQueue × List WakeEffect :=
  let r := SharedEnqueuer.enqueue q cb
  (r.1, if r.2 then [WakeEffect.performRunOnMainQueueDeferred] else [])

/-- Repeated `run_on_main` calls, collecting the wake effects of each call. -/
def run_on_main_all : SharedQueue → List Nat → SharedQueue × List (List WakeEffect)
  | q, [] => (q, [])
  | q, cb :: rest =>
    let r := AppHandle.run_on_main q cb
    let rr := run_on_main_all r.1 rest
    (rr.1, r.2 :: rr.2)

/-- Reentrant drain pass: the drain routine where each executed callback may
itself call `run_on_main`, enqueueing the callbacks given by `spawns`.
Per the drain contract, the executed snapshot is taken up front, so work
enqueued during the pass lands in the queue for the next wake.  Returns the
final delegate state and the list of callbacks executed in this pass. -/
def run_on_main_queue_reentrant (spawns : Nat → List Nat) (s : DelegateState) :
    DelegateState × List Nat :=
  let r := SharedDequeuer.drain s.run_on_main_queue
  let q1 := r.2.foldl (fun acc cb => enqueueAll acc (spawns cb)) r.1
  ({ s with run_on_main_queue := q1 }, r.2)

/-- A platform call made by `Application::quit` while tearing down: either a
deferred `close` of one window (`performSelectorOnMainThread: sel!(close)
withObject: nil waitUntilDone:` with the given flag) or the `stop:` request
to the native run loop.  Windows are identified by their index in the
`windows` array. -/
inductive Effect where
  | performCloseOnMainThread (window : Nat) (waitUntilDone : Bool)
  | stopLoop
deriving DecidableEq

/-- The `Rc<RefCell<State>>` lifecycle cell: `borrowed` is true while another
call holds the `RefCell` borrow (so `try_borrow_mut` fails), `quitting` is
the `State::quitting` flag. -/
structure LifecycleState where
  borrowed : Bool
  quitting : Bool
deriving DecidableEq

/-- Outcome of one `Application::quit` call: the lifecycle cell afterwards,
the platform effects issued in order, and whether the `tracing::warn!`
branch ran. -/
structure QuitResult where
  state : LifecycleState
  effects : List Effect
  warned : Bool
deriving DecidableEq

/-- The window-close broadcast: one deferred, non-blocking close request per
open window, in enumeration order. -/
def windowCloseEffects (windowCount : Nat) : List Effect :=
  (List.range windowCount).map (fun i => Effect.performCloseOnMainThread i false)

/-- `Application::quit`: `try_borrow_mut` fails when the cell is already
borrowed (log a warning, do nothing); otherwise, when not yet quitting, set
`quitting`, request a deferred close of every open window, then request the
loop stop; when already quitting, do nothing silently. -/
def Application.quit (windowCount : Nat) (s : LifecycleState) : QuitResult :=
  if s.borrowed then
    { state := s, effects := [], warned := true }
  else if !s.quitting then
    { state := { borrowed := s.borrowed, quitting := true },
      effects := windowCloseEffects windowCount ++ [Effect.stopLoop],
      warned := false }
  else
    { state := s, effects := [], warned := false }

/-- The whole application model: the lifecycle cell owned by `Application`
plus the delegate state reachable through the native delegate object. -/
structure AppModel where
  state : LifecycleState
  delegate : DelegateState
deriving DecidableEq

/-- `Application::new`: fresh lifecycle state with `quitting: false`, a
delegate state with no handler and an empty deferred-callback queue. -/
def Application.new : AppModel :=
  { state := { borrowed := false, quitting := false },
    delegate := { handler := none,
                  run_on_main_queue := { queue := [], wake_pending := false } } }

/-- `AppHandle`: holds exactly one capability, the producer (enqueuer) half
of the deferred-callback queue. -/
structure AppHandle where
  enqueuer : SharedQueue
deriving DecidableEq

/-- `Application::get_handle`: reads the delegate state and wraps its queue's
producer half in `Some(AppHandle { .. })`. -/
def Application.get_handle (m : AppModel) : Option AppHandle :=
  some { enqueuer := m.delegate.run_on_main_queue }

/-- The operations of the core that run against an existing application
(state-changing or not), used to express lifecycle invariants. -/
inductive CoreOp where
  | run (handler : Option Handler)
  | quit (windowCount : Nat)
  | get_handle
  | clipboard
  | run_on_main (cb : Nat)
  | drain
deriving DecidableEq

/-- Effect of each core operation on the application model. `run` installs
the handler in the delegate state; `quit` steps the lifecycle cell;
`get_handle` and `clipboard` read only; `run_on_main` enqueues; `drain` runs
the drain routine. -/
def applyOp (op : CoreOp) (m : AppModel) : AppModel :=
  match op with
  | .run h => { m with delegate := { m.delegate with handler := h } }
  | .quit n => { m with state := (Application.quit n m.state).state }
  | .get_handle => m
  | .clipboard => m
  | .run_on_main cb =>
      { m with delegate :=
          { m.delegate with
            run_on_main_queue := (SharedEnqueuer.enqueue m.delegate.run_on_main_queue cb).1 } }
  | .drain => { m with delegate := (run_on_main_queue m.delegate).1 }

/-- Rust `String::truncate(new_len)` on a string given as its char list:
cuts the string to `new_len` BYTES.  No effect when `new_len` is at least
the byte length; `none` models the panic when `new_len` does not lie on a
char boundary. -/
def rustTruncate : List Char → Nat → Option (List Char)
  | _, 0 => some []
  | [], _ + 1 => some []
  | c :: rest, n + 1 =>
    if c.utf8Size ≤ n + 1 then
      (rustTruncate rest (n + 1 - c.utf8Size)).map (fun l => c :: l)
    else none

/-- The post-processing in `Application::get_locale`: find the CHAR position
of the first `'@'` via `chars().position(..)` and pass it to `truncate`,
which counts BYTES; a string without `'@'` is returned unchanged.  The input
is the platform locale identifier; `none` models a `truncate` panic. -/
def get_locale (ident : List Char) : Option (List Char) :=
  match ident.findIdx? (fun c => c == '@') with
  | some idx => rustTruncate ident idx
  | none => some ident

theorem enqueueAll_cons (q : SharedQueue) (c : Nat) (cs : List Nat) :
    enqueueAll q (c :: cs) = enqueueAll (SharedEnqueuer.enqueue q c).1 cs := rfl

theorem enqueueAll_queue (cbs : List Nat) (q : SharedQueue) :
    (enqueueAll q cbs).queue = q.queue ++ cbs := by
  induction cbs generalizing q with
  | nil => simp [enqueueAll]
  | cons c cs ih =>
    rw [enqueueAll_cons, ih]
    simp [SharedEnqueuer.enqueue]

theorem run_on_main_all_pending (cbs : List Nat) (q : SharedQueue)
    (h : q.wake_pending = true) :
    (run_on_main_all q cbs).2 = List.replicate cbs.length [] := by
  induction cbs generalizing q with
  | nil => simp [run_on_main_all]
  | cons c cs ih =>
    simp [run_on_main_all, AppHandle.run_on_main, SharedEnqueuer.enqueue, h,
      List.replicate_succ]
    exact ih _ rfl

theorem foldl_enqueueAll_queue (spawns : Nat → List Nat) (cbs : List Nat) (q : SharedQueue) :
    (cbs.foldl (fun acc cb => enqueueAll acc (spawns cb)) q).queue
      = q.queue ++ cbs.flatMap spawns := by
  induction cbs generalizing q with
  | nil => simp
  | cons c cs ih =>
    rw [List.foldl_cons, ih, enqueueAll_queue]
    simp

/-- C1: all callbacks enqueued before a single drain are executed by
`run_on_main_queue` in exact FIFO enqueue order, each exactly once, and a
subsequent drain does not invoke any of them again (it executes nothing). -/
theorem run_on_main_queue_fifo_exactly_once (hOpt : Option Handler) (q : SharedQueue)
    (cbs : List Nat) (hq : q.queue = []) :
    ((run_on_main_queue
        { handler := hOpt, run_on_main_queue := enqueueAll q cbs }).2.map Prod.fst = cbs) ∧
    ((run_on_main_queue
        (run_on_main_queue
          { handler := hOpt, run_on_main_queue := enqueueAll q cbs }).1).2 = []) := by
  constructor
  · simp [run_on_main_queue, SharedDequeuer.drain, enqueueAll_queue, hq, Function.comp_def]
  · simp [run_on_main_queue, SharedDequeuer.drain]

theorem run_on_main_queue_fifo_exactly_once_witness :
    ((run_on_main_queue
        { handler := none,
          run_on_main_queue :=
            enqueueAll { queue := [], wake_pending := false } [1, 2, 3] }).2.map Prod.fst
      = [1, 2, 3]) ∧
    ((run_on_main_queue
        (run_on_main_queue
          { handler := none,
            run_on_main_queue :=
              enqueueAll { queue := [], wake_pending := false } [1, 2, 3] }).1).2 = []) :=
  run_on_main_queue_fifo_exactly_once none { queue := [], wake_pending := false } [1, 2, 3] rfl

/-- C2: across K successive `run_on_main` calls with no intervening drain,
`needs_wake` is true for exactly the first call and false for the K-1
others; a single enqueue reports `needs_wake` exactly when no wake was
already pending, and `run_on_main` requests the platform wake exactly when
that flag is true. -/
theorem enqueue_wake_once (q : SharedQueue) (cbs : List Nat)
    (hidle : q.wake_pending = false) (hne : cbs ≠ []) :
    ((run_on_main_all q cbs).2
      = [WakeEffect.performRunOnMainQueueDeferred] :: List.replicate (cbs.length - 1) []) ∧
    (∀ q0 cb, (SharedEnqueuer.enqueue q0 cb).2 = !q0.wake_pending) ∧
    (∀ q0 cb, (AppHandle.run_on_main q0 cb).2
        = if (SharedEnqueuer.enqueue q0 cb).2 = true
          then [WakeEffect.performRunOnMainQueueDeferred] else []) := by
  refine ⟨?_, fun q0 cb => rfl, fun q0 cb => rfl⟩
  cases cbs with
  | nil => exact absurd rfl hne
  | cons c cs =>
    simp [run_on_main_all, AppHandle.run_on_main, SharedEnqueuer.enqueue, hidle]
    exact run_on_main_all_pending cs _ rfl

theorem enqueue_wake_once_witness :
    (run_on_main_all { queue := [], wake_pending := false } [5, 6, 7]).2
      = [WakeEffect.performRunOnMainQueueDeferred] :: List.replicate 2 [] :=
  (enqueue_wake_once { queue := [], wake_pending := false } [5, 6, 7] rfl (by decide)).1

/-- C3 counterexample: a second sequential `quit()` call (borrow succeeds,
`quitting` already set) performs no effect and leaves the state unchanged,
but logs NO warning — refuting the claim that the non-effective call
"only logs a warning": the warning is emitted only on borrow failure. -/
theorem quit_second_call_no_warning_cex :
    ((Application.quit 1 { borrowed := false, quitting := false }).effects
        = [Effect.performCloseOnMainThread 0 false, Effect.stopLoop]) ∧
    ((Application.quit 1
        (Application.quit 1 { borrowed := false, quitting := false }).state).effects = []) ∧
    ((Application.quit 1
        (Application.quit 1 { borrowed := false, quitting := false }).state).state
      = (Application.quit 1 { borrowed := false, quitting := false }).state) ∧
    ((Application.quit 1
        (Application.quit 1 { borrowed := false, quitting := false }).state).warned
      = false) := by
  decide

/-- C3 (amended): across two `quit()` calls, exactly one performs the
window-close broadcast and the loop-stop request; the other performs
neither and leaves the lifecycle state unchanged, logging a warning only
when it found the state locked by a concurrent call — a sequential second
call is a silent no-op. -/
theorem quit_idempotent_race_guarded (n : Nat) :
    ((Application.quit n { borrowed := false, quitting := false }).effects
        = windowCloseEffects n ++ [Effect.stopLoop] ∧
      (Application.quit n { borrowed := false, quitting := false }).state.quitting = true ∧
      (Application.quit n
          (Application.quit n { borrowed := false, quitting := false }).state).effects = [] ∧
      (Application.quit n
          (Application.quit n { borrowed := false, quitting := false }).state).state
        = (Application.quit n { borrowed := false, quitting := false }).state ∧
      (Application.quit n
          (Application.quit n { borrowed := false, quitting := false }).state).warned
        = false) ∧
    (∀ s : LifecycleState, s.borrowed = true →
      Application.quit n s = { state := s, effects := [], warned := true }) := by
  refine ⟨⟨rfl, rfl, rfl, rfl, rfl⟩, ?_⟩
  intro s hs
  simp [Application.quit, hs]

theorem quit_idempotent_race_guarded_witness :
    Application.quit 2 { borrowed := true, quitting := false }
      = { state := { borrowed := true, quitting := false }, effects := [], warned := true } :=
  (quit_idempotent_race_guarded 2).2 { borrowed := true, quitting := false } rfl

/-- C4: the `quitting` flag starts false at `Application::new` and is
monotone — no core operation (run, quit, get_handle, clipboard, enqueue,
drain) ever resets it from true to false. -/
theorem quitting_monotone :
    Application.new.state.quitting = false ∧
    ∀ (op : CoreOp) (m : AppModel),
      m.state.quitting = true → (applyOp op m).state.quitting = true := by
  refine ⟨rfl, ?_⟩
  intro op m hm
  cases op with
  | quit n => cases hb : m.state.borrowed <;> simp [applyOp, Application.quit, hb, hm]
  | run h => simpa [applyOp] using hm
  | get_handle => simpa [applyOp] using hm
  | clipboard => simpa [applyOp] using hm
  | run_on_main cb => simpa [applyOp] using hm
  | drain => simpa [applyOp] using hm

theorem quitting_monotone_witness :
    (applyOp (CoreOp.quit 1)
        { state := { borrowed := false, quitting := true },
          delegate := { handler := none,
                        run_on_main_queue := { queue := [], wake_pending := false } } }).state.quitting
      = true :=
  quitting_monotone.2 (CoreOp.quit 1)
    { state := { borrowed := false, quitting := true },
      delegate := { handler := none,
                    run_on_main_queue := { queue := [], wake_pending := false } } } rfl

/-- C5: draining never fails and never drops callbacks regardless of whether
a handler is installed: with no handler every enqueued callback still runs
and receives `none`; with an installed handler each receives `some` of it. -/
theorem drain_without_handler_safe (q : SharedQueue) (h : Handler) :
    ((run_on_main_queue { handler := none, run_on_main_queue := q }).2
        = q.queue.map (fun cb => (cb, (none : Option Handler)))) ∧
    ((run_on_main_queue { handler := some h, run_on_main_queue := q }).2
        = q.queue.map (fun cb => (cb, some h))) ∧
    ((run_on_main_queue { handler := none, run_on_main_queue := q }).2.map Prod.fst
        = q.queue) := by
  refine ⟨rfl, rfl, ?_⟩
  simp [run_on_main_queue, SharedDequeuer.drain, Function.comp_def]

/-- C6: a drain pass is not reentrant — it executes exactly the callbacks
queued when the pass began; callbacks enqueued by executing callbacks are
not run in the same pass but are left pending and are exactly what the next
drain pass executes. -/
theorem drain_not_reentrant (spawns : Nat → List Nat) (s : DelegateState) :
    ((run_on_main_queue_reentrant spawns s).2 = s.run_on_main_queue.queue) ∧
    ((run_on_main_queue_reentrant spawns s).1.run_on_main_queue.queue
        = s.run_on_main_queue.queue.flatMap spawns) ∧
    ((run_on_main_queue_reentrant spawns (run_on_main_queue_reentrant spawns s).1).2
        = s.run_on_main_queue.queue.flatMap spawns) := by
  refine ⟨rfl, ?_, ?_⟩
  · simp [run_on_main_queue_reentrant, SharedDequeuer.drain, foldl_enqueueAll_queue]
  · simp [run_on_main_queue_reentrant, SharedDequeuer.drain, foldl_enqueueAll_queue]

/-- C7: on the transition into quitting, `quit` issues one deferred
(`waitUntilDone = NO`) close request per open window, in enumeration order,
and the loop-stop request comes strictly after all of them. -/
theorem quit_closes_all_windows_async_then_stops (n : Nat) (s : LifecycleState)
    (hb : s.borrowed = false) (hq : s.quitting = false) :
    (Application.quit n s).effects
      = (List.range n).map (fun i => Effect.performCloseOnMainThread i false)
        ++ [Effect.stopLoop] := by
  simp [Application.quit, windowCloseEffects, hb, hq]

theorem quit_closes_all_windows_async_then_stops_witness :
    (Application.quit 2 { borrowed := false, quitting := false }).effects
      = (List.range 2).map (fun i => Effect.performCloseOnMainThread i false)
        ++ [Effect.stopLoop] :=
  quit_closes_all_windows_async_then_stops 2 { borrowed := false, quitting := false } rfl rfl

/-- C8: `get_handle` never returns `None` for any application state, and the
handle it returns carries exactly the producer (enqueuer) half of the
deferred-callback queue. -/
theorem get_handle_never_none (m : AppModel) :
    (∃ h : AppHandle, Application.get_handle m = some h
        ∧ h.enqueuer = m.delegate.run_on_main_queue) ∧
    Application.get_handle m ≠ none := by
  refine ⟨⟨{ enqueuer := m.delegate.run_on_main_queue }, rfl, rfl⟩, ?_⟩
  simp [Application.get_handle]

/-- C9: `DelegateState::command` is a no-op (all state unchanged) when no
handler is installed, and otherwise forwards exactly the given code to the
handler; `handle_menu_item` feeds it the native tag truncated from `isize`
to `u32` (low 32 bits of the two's-complement value). -/
theorem command_noop_without_handler (q : SharedQueue) (code : Nat) (h : Handler)
    (s : DelegateState) (tag : Int) :
    (DelegateState.command { handler := none, run_on_main_queue := q } code
        = { handler := none, run_on_main_queue := q }) ∧
    (DelegateState.command { handler := some h, run_on_main_queue := q } code
        = { handler := some { commands := h.commands ++ [code] },
            run_on_main_queue := q }) ∧
    (handle_menu_item s tag = DelegateState.command s (isize_as_u32 tag)) ∧
    (isize_as_u32 tag = (tag % (2 ^ 32 : Int)).toNat) :=
  ⟨rfl, rfl, rfl, rfl⟩

/-- C10 (code bug evidence): `get_locale` uses the CHAR position of the
first `'@'` as a BYTE index for `truncate`.  On `"éé@b"` (here `é` is
`Char.ofNat 233`, two UTF-8 bytes) it returns `"é"` although the prefix
before the first `'@'` is `"éé"`; on `"é@b"` the byte index falls inside a
character and `truncate` panics (modelled as `none`).  ASCII identifiers
and identifiers without `'@'` behave as the claim states. -/
theorem get_locale_truncates_at_wrong_index :
    (get_locale [Char.ofNat 233, Char.ofNat 233, '@', 'b'] = some [Char.ofNat 233]) ∧
    (List.takeWhile (fun c => c != '@') [Char.ofNat 233, Char.ofNat 233, '@', 'b']
        = [Char.ofNat 233, Char.ofNat 233]) ∧
    (get_locale [Char.ofNat 233, '@', 'b'] = none) ∧
    (get_locale ['e', 'n', '_', 'U', 'S'] = some ['e', 'n', '_', 'U', 'S']) := by
  decide
